import Mathlib

/-!
Verification of the Research-Assistant repository (`app.py`).

The file embeds the pure logic of `app.py` shallowly in Lean:

* `validate_section_order` — the section-order format validator;
* `extract_text_from_pdf` — the capped PDF text extraction (the PDF library
  itself is abstracted as a parse result: either failure or a page list);
* `harden_with_correction_prompt` and the `generate` button handler,
  embedded as `runGenerate` over an abstract model oracle, recording every
  chat-completion call issued.

Python strings are modelled as `List Char` (Python operates on code points,
matching `String.data`).  Python's `str.find` becomes `findSub`
(`Option Nat` instead of the `-1` sentinel), `str.count` becomes `pyCount`
(non-overlapping left-to-right matches, as in CPython), and `str.strip()`
becomes `pyStrip` (whitespace on both ends; `isPySpace` lists exactly the
29 code points CPython's `str.strip()` removes).
-/

namespace ResearchAssistant

/-- Whitespace as stripped by Python's `str.strip()`: exactly the 29 code
points CPython treats as whitespace — the ASCII whitespace characters, the
ASCII file/group/record/unit separators, NEL, and the Unicode space
separators together with the line and paragraph separators (categories Zs,
Zl, Zp): U+00A0, U+1680, U+2000–U+200A, U+2028, U+2029, U+202F, U+205F,
U+3000. -/
def isPySpace (c : Char) : Bool :=
  c = ' ' || c = '\t' || c = '\n' || c = '\x0d' || c = '\x0b' || c = '\x0c' ||
  c = '\x1c' || c = '\x1d' || c = '\x1e' || c = '\x1f' || c = '\u0085' ||
  c = '\u00A0' || c = '\u1680' ||
  c = '\u2000' || c = '\u2001' || c = '\u2002' || c = '\u2003' ||
  c = '\u2004' || c = '\u2005' || c = '\u2006' || c = '\u2007' ||
  c = '\u2008' || c = '\u2009' || c = '\u200A' ||
  c = '\u2028' || c = '\u2029' || c = '\u202F' || c = '\u205F' || c = '\u3000'

/-- Python `s.strip()`: drop whitespace from both ends. -/
def pyStrip (l : List Char) : List Char :=
  ((l.dropWhile isPySpace).reverse.dropWhile isPySpace).reverse

/-- Python `t.find(p)`: the least index at which `p` occurs in `t`
(`none` for Python's `-1`). -/
def findSub (p : List Char) : List Char → Option Nat
  | [] => if p.isPrefixOf [] then some 0 else none
  | c :: rest =>
    if p.isPrefixOf (c :: rest) then some 0
    else (findSub p rest).map (· + 1)

/-- Worker for Python `t.count(p)`: scan `t` left to right, skipping the
next `k` positions; a match at the current position counts one and skips
the remaining `p.length - 1` positions of the match (CPython counts
non-overlapping occurrences). -/
def countOccAux (p : List Char) : List Char → Nat → Nat
  | [], _ => 0
  | c :: rest, k =>
    match k with
    | 0 =>
      if p.isPrefixOf (c :: rest) then 1 + countOccAux p rest (p.length - 1)
      else countOccAux p rest 0
    | k' + 1 => countOccAux p rest k'

/-- Python `t.count(p)` (for the empty pattern CPython returns
`len(t) + 1`). -/
def pyCount (p t : List Char) : Nat :=
  if p = [] then t.length + 1 else countOccAux p t 0

/-- The six required section titles, in required order (`SECTION_TITLES`
in `app.py`). -/
def SECTION_TITLES : List (List Char) :=
  ["1. Structured Research Summary".data,
   "2. Key Gaps".data,
   "3. Methods".data,
   "4. Related Work".data,
   "5. APA References".data,
   "6. Future Directions".data]

/-- The first `for` loop of `validate_section_order`: find each title in
turn; the first title whose `find` comes back `-1` aborts the loop
(`.error title`), otherwise the list of found positions is returned in
title order. -/
def findTitlePositions : List (List Char) → List Char → Except (List Char) (List Nat)
  | [], _ => .ok []
  | p :: ps, t =>
    match findSub p t with
    | none => .error p
    | some i => (findTitlePositions ps t).map (fun rest => i :: rest)

/-- The second `for` loop of `validate_section_order`: the first title
whose `text.count(title)` differs from 1, if any. -/
def firstBadCount : List (List Char) → List Char → Option (List Char)
  | [], _ => none
  | p :: ps, t => if pyCount p t ≠ 1 then some p else firstBadCount ps t

/-- Function `validate_section_order` from `app.py`: `(ok, reason)`.  Python's
`sorted(positions)` on a list of ints is sorting by `≤`; it is rendered
with `List.insertionSort (· ≤ ·)`. -/
def validate_section_order (text : String) : Bool × String :=
  if text.data = [] ∨ pyStrip text.data = [] then
    (false, "Empty response.")
  else
    match findTitlePositions SECTION_TITLES text.data with
    | .error title => (false, "Missing required section title: " ++ String.mk title)
    | .ok positions =>
      if positions ≠ List.insertionSort (· ≤ ·) positions then
        (false, "Section titles are present but not in the required order.")
      else
        match firstBadCount SECTION_TITLES text.data with
        | some title => (false, "Section title duplicated or malformed: " ++ String.mk title)
        | none => (true, "OK")

/-- Outcome of `page.extract_text()` for one page: the PyPDF2 call either
raises (`fail`) or returns an optional string (`extracted none` models
Python `None`, handled by `or ""` in the source). -/
inductive PageResult where
  | fail (e : String)
  | extracted (t : Option String)
deriving DecidableEq

/-- Outcome of `PdfReader(file_bytes)`: the constructor either raises or
yields the page sequence.  This abstracts the binary PDF parser, which is
an external library call in the source. -/
inductive PdfReadResult where
  | fail (e : String)
  | pages (ps : List PageResult)
deriving DecidableEq

/-- The page loop of `extract_text_from_pdf`: builds the `chunks` list.
`total` is the running number of appended characters.  A page whose text
strips to empty is skipped (`continue`); once `remaining = max_chars -
total` is exhausted the loop `break`s; otherwise the page text is cut to
`remaining` and appended.  A raising page propagates as `.error` (the
`except` in the source catches it for the whole file). -/
def extractChunksAux (maxChars : Nat) (total : Nat) :
    List PageResult → Except String (List (List Char))
  | [] => .ok []
  | page :: rest =>
    match page with
    | .fail e => .error e
    | .extracted t =>
      let text := (t.getD "").data
      if pyStrip text = [] then extractChunksAux maxChars total rest
      else if maxChars ≤ total then .ok []
      else
        let cut := text.take (maxChars - total)
        (extractChunksAux maxChars (total + cut.length) rest).map (fun cs => cut :: cs)

/-- Function `extract_text_from_pdf` from `app.py`: join the chunks with a blank
line and strip; any exception from the PDF library is caught and turned
into an inline placeholder string. -/
def extract_text_from_pdf (doc : PdfReadResult) (maxChars : Nat := 120000) : String :=
  match doc with
  | .fail e => "[PDF extraction failed: " ++ e ++ "]"
  | .pages ps =>
    match extractChunksAux maxChars 0 ps with
    | .error e => "[PDF extraction failed: " ++ e ++ "]"
    | .ok chunks => String.mk (pyStrip (List.intercalate "\n\n".data chunks))

/-- Constant `SYSTEM_PROMPT` from `app.py`. -/
def SYSTEM_PROMPT : String :=
  "You are a Research Assistant AI designed to support academic researchers.\n" ++
  "Your role is to organize, summarize, and structure research content without inventing facts, data, citations, or interpretations.\n\n" ++
  "You are NOT:\n- a scientific authority\n- a co-author\n- a decision-maker\n- a source of new experimental claims\n\n" ++
  "You ARE:\n- a structuring assistant\n- a clarity and organization tool\n- a literature-mapping aide\n\n" ++
  "INPUT EXPECTATIONS:\nThe user provides research topic(s), abstracts, DOIs, uploaded PDFs, or notes.\n" ++
  "If information is missing or insufficient, explicitly state limitations.\n\n" ++
  "STRICT PROHIBITIONS:\n- No fabricated citations, DOIs, authors, years, journals, or metrics\n" ++
  "- No inferred methods or results\n- No claims of novelty, superiority, or consensus\n\n" ++
  "OUTPUT FORMAT (MANDATORY):\n\n1. Structured Research Summary\n2. Key Gaps\n3. Methods\n" ++
  "4. Related Work\n5. APA References\n6. Future Directions\n\n" ++
  "Rules:\n- Preserve section order exactly\n- Do not merge or omit sections\n" ++
  "- If data is missing, write “Insufficient information provided.”\n\n" ++
  "STYLE:\n- Formal academic tone\n- Reviewer-neutral\n- Cautious language\n- No promotional wording\n\n" ++
  "FINAL CHECK:\nEnsure all claims are grounded in user-provided material only.\n"

/-- Function `harden_with_correction_prompt` from `app.py`: the corrective
instruction with the offending output interpolated, then `strip()`ped
(the f-string adds a leading and a trailing newline which the `strip`
removes, together with any trailing whitespace of `bad_output`). -/
def harden_with_correction_prompt (bad_output : String) : String :=
  String.mk (pyStrip
    (("\nYour previous output failed formatting requirements.\n\n" ++
      "You MUST return the output again with:\n" ++
      "- The 6 sections present EXACTLY ONCE\n" ++
      "- Titles EXACTLY as written\n" ++
      "- Sections in EXACT order\n" ++
      "- No extra sections, no merged sections\n\n" ++
      "Do NOT add new facts/citations. Only restructure/trim.\n\n" ++
      "Here is your previous output:\n").data ++ bad_output.data ++ "\n".data))

/-- One role-tagged chat message. -/
structure ChatMsg where
  role : String
  content : String
deriving DecidableEq

/-- One `client.chat.completions.create(...)` call as issued by the
`generate` handler: the sampling temperature, the token ceiling and the
ordered message list. -/
structure ModelCall where
  temperature : ℚ
  maxTokens : Nat
  messages : List ChatMsg
deriving DecidableEq

/-- What the `generate` handler leaves on the page: the text shown in the
"Structured Output" area, the "Format check" caption, the warning (if
any), and the chat-completion calls that were issued, in order. -/
structure GenResult where
  displayed : String
  caption : String
  warning : Option String
  calls : List ModelCall
deriving DecidableEq

/-- The first attempt's call (`resp = client.chat.completions.create(...)`). -/
def firstCall (temperature : ℚ) (maxTokens : Nat) (userPrompt : String) : ModelCall :=
  ⟨temperature, maxTokens,
   [⟨"system", SYSTEM_PROMPT⟩, ⟨"user", userPrompt⟩]⟩

/-- The correction pass call (`resp2 = ...`): temperature pinned to `0.0`,
the correction prompt appended as a further user message. -/
def secondCall (maxTokens : Nat) (userPrompt : String) (badOutput : String) : ModelCall :=
  ⟨0, maxTokens,
   [⟨"system", SYSTEM_PROMPT⟩, ⟨"user", userPrompt⟩,
    ⟨"user", harden_with_correction_prompt badOutput⟩]⟩

/-- The generate button handler of `app.py` (the part after the user
prompt is built), over an abstract model oracle `llm` mapping a
chat-completion call to `resp.choices[0].message.content` (`none` models
Python `None`, handled by `or ""`).  Faithful to lines 263–302 of
`app.py`: first attempt, validation, at most one correction pass at
temperature 0, and the final page state. -/
def runGenerate (llm : ModelCall → Option String) (temperature : ℚ)
    (maxTokens : Nat) (userPrompt : String) : GenResult :=
  let call1 := firstCall temperature maxTokens userPrompt
  let output := (llm call1).getD ""
  let v := validate_section_order output
  if v.1 then
    { displayed := output, caption := v.2, warning := none, calls := [call1] }
  else
    let call2 := secondCall maxTokens userPrompt output
    let output2 := (llm call2).getD ""
    let v2 := validate_section_order output2
    if v2.1 then
      { displayed := output2, caption := "OK (after correction pass)",
        warning := none, calls := [call1, call2] }
    else
      { displayed := output, caption := v.2,
        warning := some ("Output still failed strict formatting: " ++ v2.2),
        calls := [call1, call2] }

/-! ### Spec-side vocabulary

The spec speaks of titles "occurring in the text exactly once" and of
"first-occurrence positions strictly increasing in the required order".
The following definitions formalise that vocabulary independently of the
scanning code above. -/

/-- Spec vocabulary: `p` occurs in `t` at position `i`. -/
def occursAt (p t : List Char) (i : Nat) : Bool :=
  p.isPrefixOf (t.drop i)

/-- Spec vocabulary: the number of positions at which `p` occurs in `t`
(occurrences counted at every position, overlapping ones included). -/
def occCount (p : List Char) : List Char → Nat
  | [] => if p.isPrefixOf [] then 1 else 0
  | c :: rest => (if p.isPrefixOf (c :: rest) then 1 else 0) + occCount p rest

/-- Spec vocabulary: `i` is the first-occurrence position of `p` in `t`. -/
def FirstOccAt (p t : List Char) (i : Nat) : Prop :=
  occursAt p t i = true ∧ ∀ j < i, occursAt p t j = false

/-- Spec vocabulary: every required title has a first occurrence in `t`
and, listed in the required title order, these first-occurrence positions
are strictly increasing. -/
def StrictSectionOrder (t : List Char) : Prop :=
  ∃ ps : List Nat,
    List.Forall₂ (fun p i => FirstOccAt p t i) SECTION_TITLES ps ∧
    ps.Chain' (· < ·)

/-- A pattern has no self-overlap when no nontrivial shift of it matches
itself; for such patterns the non-overlapping count of Python's
`str.count` agrees with the plain number of occurrences. -/
def noSelfOverlap (p : List Char) : Prop :=
  ∀ j < p.length, 0 < j → (p.drop j).isPrefixOf p = false

instance (p : List Char) : Decidable (noSelfOverlap p) :=
  inferInstanceAs
    (Decidable (∀ j < p.length, 0 < j → (p.drop j).isPrefixOf p = false))

instance (p t : List Char) (i : Nat) : Decidable (FirstOccAt p t i) :=
  inferInstanceAs
    (Decidable (occursAt p t i = true ∧ ∀ j < i, occursAt p t j = false))

/-! ### Concrete fixtures used by the closed witness statements -/

/-- A text containing the six titles exactly once, in the required order. -/
def allGoodText : String :=
  "1. Structured Research Summary\n2. Key Gaps\n3. Methods\n" ++
  "4. Related Work\n5. APA References\n6. Future Directions"

/-- A text with all six titles present exactly once but titles 2 and 3
swapped. -/
def swappedText : String :=
  "1. Structured Research Summary\n3. Methods\n2. Key Gaps\n" ++
  "4. Related Work\n5. APA References\n6. Future Directions"

/-- A text containing title 1 twice and no other title. -/
def dupMissingText : String :=
  "1. Structured Research Summary\n1. Structured Research Summary"

/-- A text with every title once, in order, and title 6 a second time. -/
def dupOrderedText : String := allGoodText ++ "\n6. Future Directions"

/-- A model oracle whose first answer and corrected answer both fail the
format check, with different texts (the first call carries two messages,
the retry three). -/
def llmBothBad : ModelCall → Option String :=
  fun c => if c.messages.length = 2 then some "alpha output" else some "beta output"

/-- A model oracle whose first answer fails the format check and whose
corrected answer passes it. -/
def llmRetryGood : ModelCall → Option String :=
  fun c => if c.messages.length = 2 then some "bad output" else some allGoodText

/-! ### Basic lemmas about occurrences and scanning -/

theorem occursAt_zero (p t : List Char) : occursAt p t 0 = p.isPrefixOf t := by
  simp [occursAt]

theorem occursAt_succ_cons (p : List Char) (c : Char) (rest : List Char) (j : Nat) :
    occursAt p (c :: rest) (j + 1) = occursAt p rest j := rfl

theorem occCount_nil_of_ne (p : List Char) (hp : p ≠ []) : occCount p [] = 0 := by
  have : p.isPrefixOf [] = false := by
    cases p with
    | nil => exact absurd rfl hp
    | cons c cs => rfl
  simp [occCount, this]

theorem occCount_eq_zero_iff (p : List Char) (t : List Char) :
    occCount p t = 0 ↔ ∀ i, occursAt p t i = false := by
  induction t with
  | nil =>
    constructor
    · intro h i
      simp only [occCount] at h
      split at h
      · exact absurd h (by simp)
      · rename_i hpre
        simp only [Bool.not_eq_true] at hpre
        simpa [occursAt, List.drop_nil] using hpre
    · intro h
      have h0 := h 0
      simp only [occursAt, List.drop_nil] at h0
      simp [occCount, h0]
  | cons c rest ih =>
    constructor
    · intro h i
      simp only [occCount] at h
      have h1 : p.isPrefixOf (c :: rest) = false := by
        by_contra hb
        simp [eq_comm (a := false)] at hb
        simp [hb] at h
      have h2 : occCount p rest = 0 := by
        simpa [h1] using h
      cases i with
      | zero => simpa [occursAt] using h1
      | succ j => simpa [occursAt_succ_cons] using (ih.mp h2) j
    · intro h
      have h0 : p.isPrefixOf (c :: rest) = false := by
        simpa [occursAt] using h 0
      have h2 : occCount p rest = 0 :=
        ih.mpr (fun j => by simpa [occursAt_succ_cons] using h (j + 1))
      simp [occCount, h0, h2]

theorem occCount_pos_of_occursAt (p t : List Char) (i : Nat)
    (h : occursAt p t i = true) : 0 < occCount p t := by
  rcases Nat.eq_zero_or_pos (occCount p t) with h0 | h0
  · have := (occCount_eq_zero_iff p t).mp h0 i
    simp [h] at this
  · exact h0

theorem findSub_eq_none_iff (p t : List Char) :
    findSub p t = none ↔ ∀ i, occursAt p t i = false := by
  induction t with
  | nil =>
    simp only [findSub]
    split
    · constructor
      · intro h; exact absurd h (by simp)
      · intro h
        have := h 0
        simp [occursAt, List.drop_nil, ‹p.isPrefixOf [] = true›] at this
    · rename_i hpre
      simp only [Bool.not_eq_true] at hpre
      constructor
      · intro _ i
        simpa [occursAt, List.drop_nil] using hpre
      · intro _; rfl
  | cons c rest ih =>
    simp only [findSub]
    split
    · constructor
      · intro h; exact absurd h (by simp)
      · intro h
        have := h 0
        simp [occursAt, ‹p.isPrefixOf (c :: rest) = true›] at this
    · rename_i hpre
      simp only [Bool.not_eq_true] at hpre
      constructor
      · intro h i
        have hrest : findSub p rest = none := by
          cases hr : findSub p rest with
          | none => rfl
          | some j => simp [hr] at h
        cases i with
        | zero => simpa [occursAt] using hpre
        | succ j => simpa [occursAt_succ_cons] using (ih.mp hrest) j
      · intro h
        have hrest : findSub p rest = none :=
          ih.mpr (fun j => by simpa [occursAt_succ_cons] using h (j + 1))
        simp [hrest]

theorem findSub_eq_some_iff (p t : List Char) (i : Nat) :
    findSub p t = some i ↔ FirstOccAt p t i := by
  induction t generalizing i with
  | nil =>
    simp only [findSub]
    split
    · rename_i hpre
      constructor
      · intro h
        have hi : i = 0 := by simpa [eq_comm] using h
        subst hi
        exact ⟨by simpa [occursAt, List.drop_nil] using hpre, by omega⟩
      · rintro ⟨hocc, hmin⟩
        cases i with
        | zero => rfl
        | succ j =>
          have := hmin 0 (Nat.succ_pos j)
          simp [occursAt, List.drop_nil, hpre] at this
    · rename_i hpre
      simp only [Bool.not_eq_true] at hpre
      constructor
      · intro h; exact absurd h (by simp)
      · rintro ⟨hocc, -⟩
        simp [occursAt, List.drop_nil, hpre] at hocc
  | cons c rest ih =>
    simp only [findSub]
    split
    · rename_i hpre
      constructor
      · intro h
        have hi : i = 0 := by simpa [eq_comm] using h
        subst hi
        exact ⟨by simpa [occursAt] using hpre, by omega⟩
      · rintro ⟨hocc, hmin⟩
        cases i with
        | zero => rfl
        | succ j =>
          have := hmin 0 (Nat.succ_pos j)
          simp [occursAt, hpre] at this
    · rename_i hpre
      simp only [Bool.not_eq_true] at hpre
      constructor
      · intro h
        cases hr : findSub p rest with
        | none => simp [hr] at h
        | some j =>
          simp only [hr, Option.map_some'] at h
          have hi : i = j + 1 := by simpa [eq_comm] using h
          subst hi
          rcases (ih j).mp hr with ⟨hocc, hmin⟩
          refine ⟨by simpa [occursAt_succ_cons] using hocc, ?_⟩
          intro m hm
          cases m with
          | zero => simpa [occursAt] using hpre
          | succ m' =>
            have : m' < j := by omega
            simpa [occursAt_succ_cons] using hmin m' this
      · rintro ⟨hocc, hmin⟩
        cases i with
        | zero => simp [occursAt, hpre] at hocc
        | succ j =>
          have hj : findSub p rest = some j := by
            refine (ih j).mpr ⟨by simpa [occursAt_succ_cons] using hocc, ?_⟩
            intro m hm
            simpa [occursAt_succ_cons] using hmin (m + 1) (by omega)
          simp [hj]

theorem occCount_drop_of_no_occ (p : List Char) :
    ∀ (m : Nat) (t : List Char), (∀ j < m, occursAt p t j = false) →
      occCount p t = occCount p (t.drop m) := by
  intro m
  induction m with
  | zero => intro t _; simp
  | succ m' ih =>
    intro t h
    cases t with
    | nil => simp
    | cons c rest =>
      have h0 : p.isPrefixOf (c :: rest) = false := by
        simpa [occursAt] using h 0 (Nat.succ_pos m')
      have hrest : ∀ j < m', occursAt p rest j = false := by
        intro j hj
        simpa [occursAt_succ_cons] using h (j + 1) (by omega)
      calc occCount p (c :: rest) = occCount p rest := by simp [occCount, h0]
        _ = occCount p (rest.drop m') := ih rest hrest
        _ = occCount p ((c :: rest).drop (m' + 1)) := rfl

theorem selfOverlap_of_two_occ (p t : List Char) (j : Nat)
    (h1 : p.isPrefixOf t = true) (h2 : occursAt p t j = true)
    (hjL : j < p.length) :
    (p.drop j).isPrefixOf p = true := by
  rw [List.isPrefixOf_iff_prefix] at h1 ⊢
  rw [occursAt, List.isPrefixOf_iff_prefix] at h2
  obtain ⟨t1, rfl⟩ := h1
  rw [List.drop_append_of_le_length (le_of_lt hjL)] at h2
  exact List.prefix_of_prefix_length_le (List.prefix_append _ _) h2
    (by simp [Nat.sub_le])

theorem countOccAux_eq_occCount (p : List Char) (hp : p ≠ [])
    (hov : noSelfOverlap p) :
    ∀ (t : List Char) (k : Nat), countOccAux p t k = occCount p (t.drop k) := by
  intro t
  induction t with
  | nil => intro k; simp [countOccAux, occCount_nil_of_ne p hp]
  | cons c rest ih =>
    intro k
    cases k with
    | zero =>
      by_cases hpre : p.isPrefixOf (c :: rest) = true
      · have hskip : ∀ j < p.length - 1, occursAt p rest j = false := by
          intro j hj
          by_contra hocc
          simp only [Bool.not_eq_false] at hocc
          have hocc' : occursAt p (c :: rest) (j + 1) = true := by
            simpa [occursAt_succ_cons] using hocc
          have hover := selfOverlap_of_two_occ p (c :: rest) (j + 1) hpre hocc' (by omega)
          have := hov (j + 1) (by omega) (Nat.succ_pos j)
          simp [this] at hover
        calc countOccAux p (c :: rest) 0
            = 1 + countOccAux p rest (p.length - 1) := by simp [countOccAux, hpre]
          _ = 1 + occCount p (rest.drop (p.length - 1)) := by rw [ih]
          _ = 1 + occCount p rest := by
              rw [← occCount_drop_of_no_occ p (p.length - 1) rest hskip]
          _ = occCount p ((c :: rest).drop 0) := by simp [occCount, hpre]
      · have hpre' : p.isPrefixOf (c :: rest) = false := by
          simp only [Bool.not_eq_true] at hpre
          exact hpre
        calc countOccAux p (c :: rest) 0 = countOccAux p rest 0 := by
              simp [countOccAux, hpre']
          _ = occCount p rest := by rw [ih]; simp
          _ = occCount p ((c :: rest).drop 0) := by simp [occCount, hpre']
    | succ k' =>
      calc countOccAux p (c :: rest) (k' + 1) = countOccAux p rest k' := by
            simp [countOccAux]
        _ = occCount p (rest.drop k') := ih k'
        _ = occCount p ((c :: rest).drop (k' + 1)) := rfl

theorem pyCount_eq_occCount (p t : List Char) (hp : p ≠ [])
    (hov : noSelfOverlap p) : pyCount p t = occCount p t := by
  rw [pyCount, if_neg hp]
  simpa using countOccAux_eq_occCount p hp hov t 0

/-! ### Decidable facts about the six concrete titles -/

theorem titles_ne_nil : ∀ p ∈ SECTION_TITLES, p ≠ [] := by decide

theorem titles_noSelfOverlap : ∀ p ∈ SECTION_TITLES, noSelfOverlap p := by decide

theorem titles_pairwise_no_mutual :
    SECTION_TITLES.Pairwise
      (fun a b => a.isPrefixOf b = false ∧ b.isPrefixOf a = false) := by decide

theorem titles_nonspace : ∀ p ∈ SECTION_TITLES, ∃ c ∈ p, isPySpace c = false := by
  decide

theorem pyCount_eq_occCount_title (p t : List Char) (hp : p ∈ SECTION_TITLES) :
    pyCount p t = occCount p t :=
  pyCount_eq_occCount p t (titles_ne_nil p hp) (titles_noSelfOverlap p hp)

/-! ### Lemmas about stripping -/

theorem pyStrip_eq_nil_iff (l : List Char) :
    pyStrip l = [] ↔ ∀ c ∈ l, isPySpace c = true := by
  unfold pyStrip
  rw [List.reverse_eq_nil_iff, List.dropWhile_eq_nil_iff]
  constructor
  · intro h c hc
    rw [← List.takeWhile_append_dropWhile isPySpace l] at hc
    rcases List.mem_append.mp hc with hc' | hc'
    · exact List.mem_takeWhile_imp hc'
    · exact h c (List.mem_reverse.mpr hc')
  · intro h c hc
    exact h c ((List.dropWhile_sublist isPySpace).subset (List.mem_reverse.mp hc))

theorem pyStrip_ne_nil_of_occursAt (p t : List Char) (i : Nat)
    (hp : p ∈ SECTION_TITLES) (h : occursAt p t i = true) :
    pyStrip t ≠ [] := by
  intro hnil
  rcases titles_nonspace p hp with ⟨c, hcp, hcs⟩
  have hct : c ∈ t := by
    have hsub : p <+: t.drop i := List.isPrefixOf_iff_prefix.mp h
    exact (List.drop_subset i t) (hsub.subset hcp)
  have := (pyStrip_eq_nil_iff t).mp hnil c hct
  simp [this] at hcs

/-! ### The title-position loop -/

theorem findSub_none_iff_occCount_zero (p t : List Char) :
    findSub p t = none ↔ occCount p t = 0 := by
  rw [findSub_eq_none_iff, occCount_eq_zero_iff]

theorem findTitlePositions_ok_iff (ts : List (List Char)) (t : List Char) :
    ∀ ps : List Nat, findTitlePositions ts t = .ok ps ↔
      List.Forall₂ (fun p i => findSub p t = some i) ts ps := by
  induction ts with
  | nil =>
    intro ps
    simp [findTitlePositions, List.forall₂_nil_left_iff, eq_comm]
  | cons p ts' ih =>
    intro ps
    cases hf : findSub p t with
    | none =>
      simp only [findTitlePositions, hf]
      constructor
      · intro h; exact absurd h (by simp)
      · intro h
        rcases List.forall₂_cons_left_iff.mp h with ⟨i, ps', hi, -, rfl⟩
        rw [hf] at hi; cases hi
    | some i =>
      simp only [findTitlePositions, hf]
      cases hr : findTitlePositions ts' t with
      | error q =>
        constructor
        · intro h; simp [Except.map] at h
        · intro h
          rcases List.forall₂_cons_left_iff.mp h with ⟨b, ps', hb, hrest, rfl⟩
          have := (ih ps').mpr hrest
          rw [hr] at this; cases this
      | ok rest =>
        constructor
        · intro h
          simp only [Except.map, Except.ok.injEq] at h
          subst h
          exact List.Forall₂.cons hf ((ih rest).mp hr)
        · intro h
          rcases List.forall₂_cons_left_iff.mp h with ⟨b, ps', hb, hrest, rfl⟩
          rw [hf] at hb
          cases hb
          have hok : findTitlePositions ts' t = .ok ps' := (ih ps').mpr hrest
          rw [hr] at hok; cases hok
          simp [Except.map]

theorem exceptMap_eq_error {α β γ : Type} (f : α → β) (x : Except γ α) (e : γ) :
    x.map f = .error e ↔ x = .error e := by
  cases x <;> simp [Except.map]

theorem findTitlePositions_error_iff (ts : List (List Char)) (t : List Char)
    (p : List Char) :
    findTitlePositions ts t = .error p ↔
      List.find? (fun q => decide (occCount q t = 0)) ts = some p := by
  induction ts with
  | nil => simp [findTitlePositions]
  | cons q ts' ih =>
    cases hf : findSub q t with
    | none =>
      have h0 : occCount q t = 0 := (findSub_none_iff_occCount_zero q t).mp hf
      simp [findTitlePositions, hf, List.find?, h0, eq_comm]
    | some i =>
      have h0 : ¬ occCount q t = 0 := by
        rw [← findSub_none_iff_occCount_zero]
        simp [hf]
      rw [List.find?_cons_of_neg _ (by simpa using h0)]
      simp only [findTitlePositions, hf]
      rw [exceptMap_eq_error]
      exact ih

/-! ### The duplicate-count loop -/

theorem firstBadCount_eq_none_iff (ts : List (List Char)) (t : List Char) :
    firstBadCount ts t = none ↔ ∀ p ∈ ts, pyCount p t = 1 := by
  induction ts with
  | nil => simp [firstBadCount]
  | cons p ts' ih =>
    by_cases h : pyCount p t = 1
    · simp [firstBadCount, h, ih]
    · simp [firstBadCount, h]

theorem firstBadCount_eq_find? (t : List Char) :
    ∀ ts : List (List Char), (∀ q ∈ ts, pyCount q t = occCount q t) →
      firstBadCount ts t = List.find? (fun q => decide (occCount q t ≠ 1)) ts := by
  intro ts
  induction ts with
  | nil => intro _; simp [firstBadCount]
  | cons p ts' ih =>
    intro h
    have hp : pyCount p t = occCount p t := h p (List.mem_cons_self p ts')
    have hts' := fun q hq => h q (List.mem_cons_of_mem p hq)
    by_cases h1 : occCount p t = 1
    · simp [firstBadCount, List.find?, hp, h1, ih hts']
    · simp [firstBadCount, List.find?, hp, h1]

/-! ### Sorting -/

theorem eq_insertionSort_iff_sorted (l : List Nat) :
    l = List.insertionSort (· ≤ ·) l ↔ l.Sorted (· ≤ ·) := by
  constructor
  · intro h; rw [h]; exact List.sorted_insertionSort _ _
  · intro h
    exact (List.eq_of_perm_of_sorted (List.perm_insertionSort _ _)
      (List.sorted_insertionSort _ _) h).symm

theorem chain_lt_of_sorted_le_of_ne (ps : List Nat) (hs : ps.Sorted (· ≤ ·))
    (hne : ps.Pairwise (· ≠ ·)) : ps.Chain' (· < ·) := by
  rw [List.chain'_iff_pairwise]
  exact (hs.and hne).imp (fun h => lt_of_le_of_ne h.1 h.2)

theorem sorted_le_of_chain_lt (ps : List Nat) (h : ps.Chain' (· < ·)) :
    ps.Sorted (· ≤ ·) := by
  rw [List.chain'_iff_pairwise] at h
  exact h.imp le_of_lt

/-! ### First occurrences are unique and pairwise distinct -/

theorem forall₂_mem_right {α β : Type} {R : α → β → Prop} {as : List α}
    {bs : List β} (h : List.Forall₂ R as bs) :
    ∀ b ∈ bs, ∃ a ∈ as, R a b := by
  induction h with
  | nil => intro b hb; cases hb
  | cons hR hrest ih =>
    intro b hb
    rcases List.mem_cons.mp hb with rfl | hb'
    · exact ⟨_, List.mem_cons_self _ _, hR⟩
    · rcases ih b hb' with ⟨a, ha, hr⟩
      exact ⟨a, List.mem_cons_of_mem _ ha, hr⟩

theorem firstOccAt_unique (p t : List Char) (i j : Nat)
    (hi : FirstOccAt p t i) (hj : FirstOccAt p t j) : i = j := by
  by_contra hne
  rcases Nat.lt_or_ge i j with hlt | hge
  · have := hj.2 i hlt
    simp [hi.1] at this
  · have hlt : j < i := by omega
    have := hi.2 j hlt
    simp [hj.1] at this

theorem forall₂_firstOcc_unique (t : List Char) {ts : List (List Char)}
    {ps ps' : List Nat}
    (h : List.Forall₂ (fun p i => FirstOccAt p t i) ts ps)
    (h' : List.Forall₂ (fun p i => FirstOccAt p t i) ts ps') : ps = ps' := by
  induction h generalizing ps' with
  | nil =>
    rcases List.forall₂_nil_left_iff.mp h' with rfl
    rfl
  | cons hR hrest ih =>
    rcases List.forall₂_cons_left_iff.mp h' with ⟨b, l', hb, hrest', rfl⟩
    rw [firstOccAt_unique _ _ _ _ hR hb, ih hrest']

theorem positions_pairwise_ne (t : List Char) {ts : List (List Char)}
    {ps : List Nat}
    (h : List.Forall₂ (fun p i => FirstOccAt p t i) ts ps)
    (hpw : ts.Pairwise (fun a b => a.isPrefixOf b = false ∧ b.isPrefixOf a = false)) :
    ps.Pairwise (· ≠ ·) := by
  induction h with
  | nil => exact List.Pairwise.nil
  | cons hR hrest ih =>
    rename_i p i ts' ps'
    rcases List.pairwise_cons.mp hpw with ⟨hhead, htail⟩
    refine List.Pairwise.cons ?_ (ih htail)
    intro j hj hij
    rcases forall₂_mem_right hrest j hj with ⟨q, hq, hFq⟩
    subst hij
    have h1 : p.isPrefixOf (t.drop i) = true := hR.1
    have h2 : q.isPrefixOf (t.drop i) = true := hFq.1
    have hp' : p <+: t.drop i := List.isPrefixOf_iff_prefix.mp h1
    have hq' : q <+: t.drop i := List.isPrefixOf_iff_prefix.mp h2
    rcases hhead q hq with ⟨hpq, hqp⟩
    rcases Nat.le_total p.length q.length with hle | hle
    · have hpre := List.prefix_of_prefix_length_le hp' hq' hle
      rw [← List.isPrefixOf_iff_prefix] at hpre
      simp [hpre] at hpq
    · have hpre := List.prefix_of_prefix_length_le hq' hp' hle
      rw [← List.isPrefixOf_iff_prefix] at hpre
      simp [hpre] at hqp

theorem exists_occursAt_of_occCount_ne_zero (p t : List Char)
    (h : occCount p t ≠ 0) : ∃ i, occursAt p t i = true := by
  by_contra hno
  push_neg at hno
  exact h ((occCount_eq_zero_iff p t).mpr (fun i => by
    have := hno i
    simpa using this))

/-! ### Evaluating the validator branch by branch -/

theorem validate_of_empty (text : String) (h : pyStrip text.data = []) :
    validate_section_order text = (false, "Empty response.") := by
  unfold validate_section_order
  rw [if_pos (Or.inr h)]

theorem not_empty_cond (text : String) (hne : pyStrip text.data ≠ []) :
    ¬ (text.data = [] ∨ pyStrip text.data = []) := by
  rintro (h | h)
  · exact hne (by rw [h]; rfl)
  · exact hne h

theorem validate_of_missing (text : String) (p : List Char)
    (hne : pyStrip text.data ≠ [])
    (h : findTitlePositions SECTION_TITLES text.data = .error p) :
    validate_section_order text =
      (false, "Missing required section title: " ++ String.mk p) := by
  unfold validate_section_order
  rw [if_neg (not_empty_cond text hne)]
  simp only [h]

theorem validate_of_unsorted (text : String) (ps : List Nat)
    (hne : pyStrip text.data ≠ [])
    (hok : findTitlePositions SECTION_TITLES text.data = .ok ps)
    (hs : ps ≠ List.insertionSort (· ≤ ·) ps) :
    validate_section_order text =
      (false, "Section titles are present but not in the required order.") := by
  unfold validate_section_order
  rw [if_neg (not_empty_cond text hne)]
  simp only [hok]
  rw [if_pos hs]

theorem validate_of_dup (text : String) (ps : List Nat) (q : List Char)
    (hne : pyStrip text.data ≠ [])
    (hok : findTitlePositions SECTION_TITLES text.data = .ok ps)
    (hs : ps = List.insertionSort (· ≤ ·) ps)
    (hbad : firstBadCount SECTION_TITLES text.data = some q) :
    validate_section_order text =
      (false, "Section title duplicated or malformed: " ++ String.mk q) := by
  unfold validate_section_order
  rw [if_neg (not_empty_cond text hne)]
  simp only [hok]
  rw [if_neg (fun hcon => hcon hs)]
  simp only [hbad]

theorem validate_of_all_good (text : String) (ps : List Nat)
    (hne : pyStrip text.data ≠ [])
    (hok : findTitlePositions SECTION_TITLES text.data = .ok ps)
    (hs : ps = List.insertionSort (· ≤ ·) ps)
    (hbad : firstBadCount SECTION_TITLES text.data = none) :
    validate_section_order text = (true, "OK") := by
  unfold validate_section_order
  rw [if_neg (not_empty_cond text hne)]
  simp only [hok]
  rw [if_neg (fun hcon => hcon hs)]
  simp only [hbad]

/-! ### The master characterization of the validator's success -/

theorem validate_true_iff (text : String) :
    (validate_section_order text).1 = true ↔
      (∀ p ∈ SECTION_TITLES, occCount p text.data = 1) ∧
      StrictSectionOrder text.data := by
  by_cases hstrip : pyStrip text.data = []
  · rw [validate_of_empty text hstrip]
    simp only [Bool.false_eq_true, false_iff]
    rintro ⟨hcnt, -⟩
    have hmem : "1. Structured Research Summary".data ∈ SECTION_TITLES := by
      simp [SECTION_TITLES]
    have h1 : occCount "1. Structured Research Summary".data text.data = 1 :=
      hcnt _ hmem
    rcases exists_occursAt_of_occCount_ne_zero
      "1. Structured Research Summary".data text.data (by omega) with ⟨i, hi⟩
    exact pyStrip_ne_nil_of_occursAt _ _ i hmem hi hstrip
  · cases hfind : findTitlePositions SECTION_TITLES text.data with
    | error p =>
      rw [validate_of_missing text p hstrip hfind]
      simp only [Bool.false_eq_true, false_iff]
      rintro ⟨hcnt, -⟩
      have herr := (findTitlePositions_error_iff SECTION_TITLES text.data p).mp hfind
      have hmem := List.mem_of_find?_eq_some herr
      have hpred := List.find?_some herr
      have h0 : occCount p text.data = 0 := by simpa using hpred
      have := hcnt p hmem
      omega
    | ok ps =>
      have hFall : List.Forall₂ (fun p i => findSub p text.data = some i)
          SECTION_TITLES ps := (findTitlePositions_ok_iff _ _ ps).mp hfind
      have hFirst : List.Forall₂ (fun p i => FirstOccAt p text.data i)
          SECTION_TITLES ps :=
        hFall.imp (fun {a b} h => (findSub_eq_some_iff a text.data b).mp h)
      by_cases hsort : ps = List.insertionSort (· ≤ ·) ps
      · cases hbad : firstBadCount SECTION_TITLES text.data with
        | some q =>
          rw [validate_of_dup text ps q hstrip hfind hsort hbad]
          simp only [Bool.false_eq_true, false_iff]
          rintro ⟨hcnt, -⟩
          rw [firstBadCount_eq_find? text.data SECTION_TITLES
            (fun q hq => pyCount_eq_occCount_title q text.data hq)] at hbad
          have hpred := List.find?_some hbad
          have hmem := List.mem_of_find?_eq_some hbad
          have : occCount q text.data ≠ 1 := by simpa using hpred
          exact this (hcnt q hmem)
        | none =>
          rw [validate_of_all_good text ps hstrip hfind hsort hbad]
          simp only [true_iff]
          constructor
          · intro p hp
            have := (firstBadCount_eq_none_iff SECTION_TITLES text.data).mp hbad p hp
            rw [pyCount_eq_occCount_title p text.data hp] at this
            exact this
          · refine ⟨ps, hFirst, ?_⟩
            refine chain_lt_of_sorted_le_of_ne ps ?_ ?_
            · exact (eq_insertionSort_iff_sorted ps).mp hsort
            · exact positions_pairwise_ne text.data hFirst titles_pairwise_no_mutual
      · rw [validate_of_unsorted text ps hstrip hfind hsort]
        simp only [Bool.false_eq_true, false_iff]
        rintro ⟨-, ⟨ps', hf', hchain⟩⟩
        have hps : ps = ps' := forall₂_firstOcc_unique text.data hFirst hf'
        subst hps
        exact hsort ((eq_insertionSort_iff_sorted ps).mpr (sorted_le_of_chain_lt ps hchain))

theorem forall₂_mem_left {α β : Type} {R : α → β → Prop} {as : List α}
    {bs : List β} (h : List.Forall₂ R as bs) :
    ∀ a ∈ as, ∃ b ∈ bs, R a b := by
  induction h with
  | nil => intro a ha; cases ha
  | cons hR hrest ih =>
    intro a ha
    rcases List.mem_cons.mp ha with rfl | ha'
    · exact ⟨_, List.mem_cons_self _ _, hR⟩
    · rcases ih a ha' with ⟨b, hb, hr⟩
      exact ⟨b, List.mem_cons_of_mem _ hb, hr⟩

theorem findTitlePositions_ok_of_first (t : List Char) (ps : List Nat)
    (hf : List.Forall₂ (fun p i => FirstOccAt p t i) SECTION_TITLES ps) :
    findTitlePositions SECTION_TITLES t = .ok ps :=
  (findTitlePositions_ok_iff _ _ ps).mpr
    (hf.imp (fun {a b} h => (findSub_eq_some_iff a t b).mpr h))

theorem pyStrip_ne_nil_of_first (t : List Char) (ps : List Nat)
    (hf : List.Forall₂ (fun p i => FirstOccAt p t i) SECTION_TITLES ps) :
    pyStrip t ≠ [] := by
  have hmem : "1. Structured Research Summary".data ∈ SECTION_TITLES := by
    simp [SECTION_TITLES]
  rcases forall₂_mem_left hf _ hmem with ⟨i, -, hFi⟩
  exact pyStrip_ne_nil_of_occursAt _ t i hmem hFi.1

theorem occCount_ne_zero_of_first (t : List Char) (ps : List Nat)
    (hf : List.Forall₂ (fun p i => FirstOccAt p t i) SECTION_TITLES ps) :
    ∀ q ∈ SECTION_TITLES, occCount q t ≠ 0 := by
  intro q hq
  rcases forall₂_mem_left hf q hq with ⟨i, -, hFi⟩
  have := occCount_pos_of_occursAt q t i hFi.1
  omega

theorem not_strict_of_unsorted (t : List Char) (ps : List Nat)
    (hf : List.Forall₂ (fun p i => FirstOccAt p t i) SECTION_TITLES ps)
    (hs : ps ≠ List.insertionSort (· ≤ ·) ps) :
    ¬ StrictSectionOrder t := by
  rintro ⟨ps', hf', hchain⟩
  have : ps = ps' := forall₂_firstOcc_unique t hf hf'
  subst this
  exact hs ((eq_insertionSort_iff_sorted ps).mpr (sorted_le_of_chain_lt ps hchain))

theorem sorted_of_first_chain (t : List Char) (ps : List Nat)
    (hf : List.Forall₂ (fun p i => FirstOccAt p t i) SECTION_TITLES ps)
    (hstrict : StrictSectionOrder t) :
    ps = List.insertionSort (· ≤ ·) ps := by
  rcases hstrict with ⟨ps', hf', hchain⟩
  have : ps = ps' := forall₂_firstOcc_unique t hf hf'
  subst this
  exact (eq_insertionSort_iff_sorted ps).mpr (sorted_le_of_chain_lt ps hchain)

/-! ### The extraction cap -/

theorem extractChunksAux_sum_le (maxChars : Nat) :
    ∀ (ps : List PageResult) (total : Nat) (chunks : List (List Char)),
      extractChunksAux maxChars total ps = .ok chunks →
      (chunks.map List.length).sum ≤ maxChars - total := by
  intro ps
  induction ps with
  | nil =>
    intro total chunks h
    simp only [extractChunksAux, Except.ok.injEq] at h
    subst h
    simp
  | cons page rest ih =>
    intro total chunks h
    cases page with
    | fail e => simp [extractChunksAux] at h
    | extracted t =>
      simp only [extractChunksAux] at h
      by_cases hblank : pyStrip (t.getD "").data = []
      · rw [if_pos hblank] at h
        exact ih total chunks h
      · rw [if_neg hblank] at h
        by_cases hfull : maxChars ≤ total
        · rw [if_pos hfull] at h
          simp only [Except.ok.injEq] at h
          subst h
          simp
        · rw [if_neg hfull] at h
          cases hr : extractChunksAux maxChars
              (total + ((t.getD "").data.take (maxChars - total)).length) rest with
          | error e =>
            rw [hr] at h
            simp [Except.map] at h
          | ok cs =>
            rw [hr] at h
            simp only [Except.map, Except.ok.injEq] at h
            subst h
            have hrec := ih _ cs hr
            have hcut : ((t.getD "").data.take (maxChars - total)).length ≤
                maxChars - total := by
              simp [List.length_take]
            simp only [List.map_cons, List.sum_cons]
            omega

/-! ### The claims -/

/-- C1: for every text, `validate_section_order` returns ok=true iff each
of the six required section titles occurs in the text exactly once and the
first-occurrence positions of the titles are strictly increasing in the
required order. -/
theorem C1_ok_iff_exactly_once_in_order (text : String) :
    (validate_section_order text).1 = true ↔
      (∀ p ∈ SECTION_TITLES, occCount p text.data = 1) ∧
      StrictSectionOrder text.data :=
  validate_true_iff text

/-- C8: every input text that is empty or consists only of whitespace
yields ok=false with reason "Empty response.". -/
theorem C8_blank_input (text : String)
    (h : ∀ c ∈ text.data, isPySpace c = true) :
    validate_section_order text = (false, "Empty response.") :=
  validate_of_empty text ((pyStrip_eq_nil_iff text.data).mpr h)

theorem C8_blank_input_witness :
    validate_section_order "" = (false, "Empty response.") ∧
    validate_section_order " \t\n " = (false, "Empty response.") ∧
    validate_section_order "\u00A0\u2028\u3000" = (false, "Empty response.") :=
  ⟨C8_blank_input "" (by decide), C8_blank_input " \t\n " (by decide),
   C8_blank_input "\u00A0\u2028\u3000" (by decide)⟩

/-- C10: the validator is deterministic — two invocations on the same
input text return the same (ok, reason) pair; being a pure function of the
text, it depends on no external state. -/
theorem C10_deterministic (t₁ t₂ : String) (h : t₁ = t₂) :
    validate_section_order t₁ = validate_section_order t₂ :=
  congrArg validate_section_order h

theorem C10_deterministic_witness :
    validate_section_order allGoodText = validate_section_order allGoodText :=
  C10_deterministic allGoodText allGoodText rfl

/-- C7: for every text in which each required title has a first occurrence
but the first-occurrence positions, in required-title order, are not
strictly increasing, the validator returns ok=false with the out-of-order
reason. -/
theorem C7_out_of_order (text : String) (ps : List Nat)
    (hf : List.Forall₂ (fun p i => FirstOccAt p text.data i) SECTION_TITLES ps)
    (hperm : ¬ ps.Chain' (· < ·)) :
    validate_section_order text =
      (false, "Section titles are present but not in the required order.") := by
  have hok := findTitlePositions_ok_of_first text.data ps hf
  have hne := pyStrip_ne_nil_of_first text.data ps hf
  have hsort : ps ≠ List.insertionSort (· ≤ ·) ps := by
    intro hs
    exact hperm (chain_lt_of_sorted_le_of_ne ps
      ((eq_insertionSort_iff_sorted ps).mp hs)
      (positions_pairwise_ne text.data hf titles_pairwise_no_mutual))
  exact validate_of_unsorted text ps hne hok hsort

set_option maxRecDepth 200000 in
theorem C7_out_of_order_witness :
    validate_section_order swappedText =
      (false, "Section titles are present but not in the required order.") :=
  C7_out_of_order swappedText [0, 42, 31, 54, 70, 88]
    (List.Forall₂.cons (by decide) (List.Forall₂.cons (by decide)
      (List.Forall₂.cons (by decide) (List.Forall₂.cons (by decide)
        (List.Forall₂.cons (by decide) (List.Forall₂.cons (by decide)
          List.Forall₂.nil))))))
    (by
      intro h
      have h1 := (List.chain'_cons.mp h).2
      have h2 := (List.chain'_cons.mp h1).1
      omega)

/-- C4 counterexample: in `dupMissingText` the title "1. Structured
Research Summary" occurs twice, yet the validator's reason cites a missing
title (title 2) rather than a duplication, so the claim's reason clause
fails as universally stated. -/
theorem C4_counterexample :
    2 ≤ occCount "1. Structured Research Summary".data dupMissingText.data ∧
    validate_section_order dupMissingText =
      (false, "Missing required section title: 2. Key Gaps") ∧
    (validate_section_order dupMissingText).2 ≠
      "Section title duplicated or malformed: 1. Structured Research Summary" := by
  refine ⟨by decide, by decide, by decide⟩

/-- C4 (amended): a duplicated required title always forces ok=false; the
reason cites a duplicated title whenever the first occurrences of all six
titles exist and are strictly increasing in the required order (the
missing-title and out-of-order checks take precedence otherwise). -/
theorem C4_duplicate_rejected (text : String) (p : List Char)
    (hp : p ∈ SECTION_TITLES) (hdup : 2 ≤ occCount p text.data) :
    (validate_section_order text).1 = false ∧
    (StrictSectionOrder text.data →
      ∃ q ∈ SECTION_TITLES, 2 ≤ occCount q text.data ∧
        (validate_section_order text).2 =
          "Section title duplicated or malformed: " ++ String.mk q) := by
  constructor
  · cases hv : (validate_section_order text).1 with
    | false => rfl
    | true =>
      have hchar := (validate_true_iff text).mp hv
      have h1 := hchar.1 p hp
      omega
  · intro hstrict
    rcases hstrict with ⟨ps, hf, hchain⟩
    have hok := findTitlePositions_ok_of_first text.data ps hf
    have hne := pyStrip_ne_nil_of_first text.data ps hf
    have hsorted : ps = List.insertionSort (· ≤ ·) ps :=
      (eq_insertionSort_iff_sorted ps).mpr (sorted_le_of_chain_lt ps hchain)
    have hfind : firstBadCount SECTION_TITLES text.data =
        List.find? (fun q => decide (occCount q text.data ≠ 1)) SECTION_TITLES :=
      firstBadCount_eq_find? text.data SECTION_TITLES
        (fun q hq => pyCount_eq_occCount_title q text.data hq)
    have hsome : (List.find? (fun q => decide (occCount q text.data ≠ 1))
        SECTION_TITLES).isSome := by
      rw [List.find?_isSome]
      refine ⟨p, hp, ?_⟩
      simp only [decide_eq_true_eq]
      omega
    rcases Option.isSome_iff_exists.mp hsome with ⟨q, hq⟩
    have hmem := List.mem_of_find?_eq_some hq
    have hne1 : occCount q text.data ≠ 1 := by
      simpa using List.find?_some hq
    have hne0 : occCount q text.data ≠ 0 :=
      occCount_ne_zero_of_first text.data ps hf q hmem
    refine ⟨q, hmem, by omega, ?_⟩
    rw [validate_of_dup text ps q hne hok hsorted (by rw [hfind]; exact hq)]

set_option maxRecDepth 1000000 in
theorem C4_duplicate_rejected_witness :
    (validate_section_order dupOrderedText).1 = false ∧
    (StrictSectionOrder dupOrderedText.data →
      ∃ q ∈ SECTION_TITLES, 2 ≤ occCount q dupOrderedText.data ∧
        (validate_section_order dupOrderedText).2 =
          "Section title duplicated or malformed: " ++ String.mk q) :=
  C4_duplicate_rejected dupOrderedText "6. Future Directions".data
    (by decide) (by decide)

/-- C5 counterexample: the empty input is a failing input whose first
violation in the stated precedence is the missing first title, yet the
returned reason is "Empty response.", which does not identify it. -/
theorem C5_counterexample :
    (validate_section_order "").1 = false ∧
    List.find? (fun q => decide (occCount q ("" : String).data = 0)) SECTION_TITLES =
      some "1. Structured Research Summary".data ∧
    (validate_section_order "").2 ≠
      "Missing required section title: 1. Structured Research Summary" := by
  refine ⟨by decide, by decide, by decide⟩

/-- C5 (amended): on any failing input that is not empty/whitespace-only,
the reason identifies the first violation found, checked missing title
first, then out-of-order, then duplicated title; empty or whitespace-only
input instead reports "Empty response.". -/
theorem C5_reason_precedence (text : String)
    (hne : pyStrip text.data ≠ [])
    (hfail : (validate_section_order text).1 = false) :
    (∃ p, List.find? (fun q => decide (occCount q text.data = 0)) SECTION_TITLES
        = some p ∧
      (validate_section_order text).2 =
        "Missing required section title: " ++ String.mk p) ∨
    ((∀ q ∈ SECTION_TITLES, occCount q text.data ≠ 0) ∧
      ¬ StrictSectionOrder text.data ∧
      (validate_section_order text).2 =
        "Section titles are present but not in the required order.") ∨
    ((∀ q ∈ SECTION_TITLES, occCount q text.data ≠ 0) ∧
      StrictSectionOrder text.data ∧
      ∃ p, List.find? (fun q => decide (occCount q text.data ≠ 1)) SECTION_TITLES
          = some p ∧
        (validate_section_order text).2 =
          "Section title duplicated or malformed: " ++ String.mk p) := by
  cases hfind : findTitlePositions SECTION_TITLES text.data with
  | error p =>
    left
    refine ⟨p, (findTitlePositions_error_iff _ _ p).mp hfind, ?_⟩
    rw [validate_of_missing text p hne hfind]
  | ok ps =>
    have hFall := (findTitlePositions_ok_iff _ _ ps).mp hfind
    have hFirst : List.Forall₂ (fun p i => FirstOccAt p text.data i)
        SECTION_TITLES ps :=
      hFall.imp (fun {a b} h => (findSub_eq_some_iff a text.data b).mp h)
    have hall := occCount_ne_zero_of_first text.data ps hFirst
    by_cases hsort : ps = List.insertionSort (· ≤ ·) ps
    · cases hbad : firstBadCount SECTION_TITLES text.data with
      | none =>
        have hgood := validate_of_all_good text ps hne hfind hsort hbad
        rw [hgood] at hfail
        simp at hfail
      | some q =>
        right; right
        have hstrict : StrictSectionOrder text.data :=
          ⟨ps, hFirst, chain_lt_of_sorted_le_of_ne ps
            ((eq_insertionSort_iff_sorted ps).mp hsort)
            (positions_pairwise_ne text.data hFirst titles_pairwise_no_mutual)⟩
        refine ⟨hall, hstrict, q, ?_, ?_⟩
        · rw [← firstBadCount_eq_find? text.data SECTION_TITLES
            (fun r hr => pyCount_eq_occCount_title r text.data hr)]
          exact hbad
        · rw [validate_of_dup text ps q hne hfind hsort hbad]
    · right; left
      exact ⟨hall, not_strict_of_unsorted text.data ps hFirst hsort,
        by rw [validate_of_unsorted text ps hne hfind hsort]⟩

theorem C5_reason_precedence_witness :
    (∃ p, List.find? (fun q => decide (occCount q ("xyz" : String).data = 0)) SECTION_TITLES
        = some p ∧
      (validate_section_order "xyz").2 =
        "Missing required section title: " ++ String.mk p) ∨
    ((∀ q ∈ SECTION_TITLES, occCount q ("xyz" : String).data ≠ 0) ∧
      ¬ StrictSectionOrder ("xyz" : String).data ∧
      (validate_section_order "xyz").2 =
        "Section titles are present but not in the required order.") ∨
    ((∀ q ∈ SECTION_TITLES, occCount q ("xyz" : String).data ≠ 0) ∧
      StrictSectionOrder ("xyz" : String).data ∧
      ∃ p, List.find? (fun q => decide (occCount q ("xyz" : String).data ≠ 1)) SECTION_TITLES
          = some p ∧
        (validate_section_order "xyz").2 =
          "Section title duplicated or malformed: " ++ String.mk p) :=
  C5_reason_precedence "xyz" (by decide) (by decide)

/-- C2 counterexample: with a model whose first answer is "alpha output"
(failing validation) and whose correction-pass answer is "beta output"
(also failing), the page displays the FIRST attempt's text, not the second
attempt's as the claim states. -/
theorem C2_counterexample :
    (llmBothBad (secondCall 100 "the prompt" "alpha output")).getD ""
      = "beta output" ∧
    (validate_section_order "alpha output").1 = false ∧
    (validate_section_order "beta output").1 = false ∧
    (runGenerate llmBothBad 1 100 "the prompt").displayed = "alpha output" ∧
    "alpha output" ≠ "beta output" := by
  refine ⟨rfl, by decide, by decide, by decide, by decide⟩

/-- C2 (amended): when the first output fails validation and the
correction pass's output also fails, the original failure reason is the
format-check caption, the second attempt's failure reason appears in the
warning, and the FIRST attempt's text is the one presented to the user
(the handler only switches to the second text when it validates). -/
theorem C2_both_fail_first_shown (llm : ModelCall → Option String)
    (temperature : ℚ) (maxTokens : Nat) (userPrompt : String)
    (h1 : (validate_section_order
      ((llm (firstCall temperature maxTokens userPrompt)).getD "")).1 = false)
    (h2 : (validate_section_order ((llm (secondCall maxTokens userPrompt
      ((llm (firstCall temperature maxTokens userPrompt)).getD ""))).getD "")).1
        = false) :
    (runGenerate llm temperature maxTokens userPrompt).displayed =
      (llm (firstCall temperature maxTokens userPrompt)).getD "" ∧
    (runGenerate llm temperature maxTokens userPrompt).caption =
      (validate_section_order
        ((llm (firstCall temperature maxTokens userPrompt)).getD "")).2 ∧
    (runGenerate llm temperature maxTokens userPrompt).warning =
      some ("Output still failed strict formatting: " ++
        (validate_section_order ((llm (secondCall maxTokens userPrompt
          ((llm (firstCall temperature maxTokens userPrompt)).getD ""))).getD "")).2) := by
  simp only [runGenerate, h1, Bool.false_eq_true, if_false, h2]
  exact ⟨trivial, trivial, trivial⟩

theorem C2_both_fail_first_shown_witness :
    (runGenerate llmBothBad 1 100 "the prompt").displayed =
      (llmBothBad (firstCall 1 100 "the prompt")).getD "" ∧
    (runGenerate llmBothBad 1 100 "the prompt").caption =
      (validate_section_order
        ((llmBothBad (firstCall 1 100 "the prompt")).getD "")).2 ∧
    (runGenerate llmBothBad 1 100 "the prompt").warning =
      some ("Output still failed strict formatting: " ++
        (validate_section_order ((llmBothBad (secondCall 100 "the prompt"
          ((llmBothBad (firstCall 1 100 "the prompt")).getD ""))).getD "")).2) :=
  C2_both_fail_first_shown llmBothBad 1 100 "the prompt" (by decide) (by decide)

/-- C6: when the first attempt's output fails validation, the handler
issues exactly one additional chat-completion call — the complete call
trace is the first call followed by the retry, so no further retry ever
happens — the retry is pinned to temperature 0 and carries the correction
prompt, and its output is re-validated, that re-validation alone deciding
the final page state. -/
theorem C6_single_retry (llm : ModelCall → Option String) (temperature : ℚ)
    (maxTokens : Nat) (userPrompt : String)
    (h1 : (validate_section_order
      ((llm (firstCall temperature maxTokens userPrompt)).getD "")).1 = false) :
    (runGenerate llm temperature maxTokens userPrompt).calls =
      [firstCall temperature maxTokens userPrompt,
       secondCall maxTokens userPrompt
         ((llm (firstCall temperature maxTokens userPrompt)).getD "")] ∧
    (secondCall maxTokens userPrompt
      ((llm (firstCall temperature maxTokens userPrompt)).getD "")).temperature
        = 0 ∧
    (if (validate_section_order ((llm (secondCall maxTokens userPrompt
          ((llm (firstCall temperature maxTokens userPrompt)).getD ""))).getD "")).1
        then
       (runGenerate llm temperature maxTokens userPrompt).displayed =
          (llm (secondCall maxTokens userPrompt
            ((llm (firstCall temperature maxTokens userPrompt)).getD ""))).getD "" ∧
       (runGenerate llm temperature maxTokens userPrompt).caption =
          "OK (after correction pass)"
     else
       (runGenerate llm temperature maxTokens userPrompt).displayed =
          (llm (firstCall temperature maxTokens userPrompt)).getD "" ∧
       (runGenerate llm temperature maxTokens userPrompt).warning =
          some ("Output still failed strict formatting: " ++
            (validate_section_order ((llm (secondCall maxTokens userPrompt
              ((llm (firstCall temperature maxTokens userPrompt)).getD ""))).getD "")).2)) := by
  cases h2 : (validate_section_order ((llm (secondCall maxTokens userPrompt
      ((llm (firstCall temperature maxTokens userPrompt)).getD ""))).getD "")).1 with
  | true =>
    simp only [runGenerate, h1, Bool.false_eq_true, if_false, h2, if_true]
    exact ⟨trivial, rfl, trivial, trivial⟩
  | false =>
    simp only [runGenerate, h1, Bool.false_eq_true, if_false, h2]
    exact ⟨trivial, rfl, trivial, trivial⟩

set_option maxRecDepth 1000000 in
theorem C6_single_retry_witness :
    (runGenerate llmRetryGood 1 100 "the prompt").calls =
      [firstCall 1 100 "the prompt",
       secondCall 100 "the prompt"
         ((llmRetryGood (firstCall 1 100 "the prompt")).getD "")] ∧
    (secondCall 100 "the prompt"
      ((llmRetryGood (firstCall 1 100 "the prompt")).getD "")).temperature = 0 ∧
    (if (validate_section_order ((llmRetryGood (secondCall 100 "the prompt"
          ((llmRetryGood (firstCall 1 100 "the prompt")).getD ""))).getD "")).1
        then
       (runGenerate llmRetryGood 1 100 "the prompt").displayed =
          (llmRetryGood (secondCall 100 "the prompt"
            ((llmRetryGood (firstCall 1 100 "the prompt")).getD ""))).getD "" ∧
       (runGenerate llmRetryGood 1 100 "the prompt").caption =
          "OK (after correction pass)"
     else
       (runGenerate llmRetryGood 1 100 "the prompt").displayed =
          (llmRetryGood (firstCall 1 100 "the prompt")).getD "" ∧
       (runGenerate llmRetryGood 1 100 "the prompt").warning =
          some ("Output still failed strict formatting: " ++
            (validate_section_order ((llmRetryGood (secondCall 100 "the prompt"
              ((llmRetryGood (firstCall 1 100 "the prompt")).getD ""))).getD "")).2)) :=
  C6_single_retry llmRetryGood 1 100 "the prompt" (by decide)

/-- C3: across all pages, the extraction loop of `extract_text_from_pdf`
never accumulates more than the fixed 120000-character ceiling of
extracted text (pages are truncated mid-page to the remaining budget), and
the returned string is exactly the blank-line join of those capped chunks,
stripped. -/
theorem C3_extraction_capped (ps : List PageResult) (chunks : List (List Char))
    (h : extractChunksAux 120000 0 ps = .ok chunks) :
    (chunks.map List.length).sum ≤ 120000 ∧
    extract_text_from_pdf (PdfReadResult.pages ps) =
      String.mk (pyStrip (List.intercalate "\n\n".data chunks)) := by
  constructor
  · simpa using extractChunksAux_sum_le 120000 ps 0 chunks h
  · simp only [extract_text_from_pdf]
    rw [h]

theorem C3_extraction_capped_witness :
    (([("hello" : String).data].map List.length).sum ≤ 120000) ∧
    extract_text_from_pdf
        (PdfReadResult.pages [PageResult.extracted (some "hello")]) =
      String.mk (pyStrip (List.intercalate "\n\n".data [("hello" : String).data])) :=
  C3_extraction_capped [PageResult.extracted (some "hello")]
    [("hello" : String).data] rfl

/-- C9: a PDF parse failure, or a page whose text extraction raises, is
caught inside `extract_text_from_pdf` and reported as the inline
placeholder string; the embedded function is total, so no exception ever
escapes to abort the surrounding request. -/
theorem C9_failure_inline (e : String) (ps : List PageResult)
    (hp : extractChunksAux 120000 0 ps = .error e) :
    extract_text_from_pdf (PdfReadResult.fail e) =
      "[PDF extraction failed: " ++ e ++ "]" ∧
    extract_text_from_pdf (PdfReadResult.pages ps) =
      "[PDF extraction failed: " ++ e ++ "]" := by
  constructor
  · rfl
  · simp only [extract_text_from_pdf]
    rw [hp]

theorem C9_failure_inline_witness :
    extract_text_from_pdf (PdfReadResult.fail "boom") =
      "[PDF extraction failed: " ++ "boom" ++ "]" ∧
    extract_text_from_pdf (PdfReadResult.pages [PageResult.fail "boom"]) =
      "[PDF extraction failed: " ++ "boom" ++ "]" :=
  C9_failure_inline "boom" [PageResult.fail "boom"] rfl

end ResearchAssistant
